import Mathlib

/-
Verification of the SNS message validator against its specification.

The JavaScript source is embedded shallowly:
  - an envelope (a JS object mapping field names to string-or-null values)
    becomes an association list from String to Value;
  - JS expression-level values flowing through the pipeline (undefined, null,
    string) become the JsVal type;
  - the external collaborators (HTTPS client, RSA verifier, URL parser from
    the platform library) become explicit oracle parameters or small models,
    with exceptions modelled by Except;
  - the certificate cache is threaded through explicitly as state.
-/

set_option autoImplicit false

namespace SnsValidator

/-- Field value stored in an envelope: a JSON string or an explicit null. -/
inductive Value where
  | nullV : Value
  | strV : String → Value
deriving DecidableEq, Repr

/-- An envelope: a JS object mapping field names to values, as an association list. -/
abbrev Envelope := List (String × Value)

/-- The certificate cache: a JS object mapping certificate URLs to PEM blobs. -/
abbrev Cache := List (String × String)

/-- Lookup of a key in a JS object modelled as an association list. -/
def lookupA {β : Type} : List (String × β) → String → Option β
  | [], _ => none
  | (k, v) :: rest, key => if k = key then some v else lookupA rest key

/-- Property assignment on a JS object: overwrite an existing key in place, else append. -/
def setA {β : Type} : List (String × β) → String → β → List (String × β)
  | [], key, v => [(key, v)]
  | (k, w) :: rest, key, v =>
    if k = key then (key, v) :: rest else (k, w) :: setA rest key v

/-- The JS delete operator on a JS object key. -/
def removeA {β : Type} : List (String × β) → String → List (String × β)
  | [], _ => []
  | (k, w) :: rest, key =>
    if k = key then removeA rest key else (k, w) :: removeA rest key

/-- The JS in-operator: the object has the key. -/
def hasKey (m : Envelope) (k : String) : Bool :=
  (lookupA m k).isSome

/-- A JS expression-level value: undefined, null, or a string. -/
inductive JsVal where
  | undef : JsVal
  | jsNull : JsVal
  | jsStr : String → JsVal
deriving DecidableEq, Repr

/-- Reading a property of the envelope as a JS value (absent keys read as undefined). -/
def jsIndex (m : Envelope) (k : String) : JsVal :=
  match lookupA m k with
  | none => JsVal.undef
  | some Value.nullV => JsVal.jsNull
  | some (Value.strV s) => JsVal.jsStr s

/-- JS truthiness of a value (undefined, null and the empty string are falsy). -/
def jsTruthy : JsVal → Bool
  | JsVal.undef => false
  | JsVal.jsNull => false
  | JsVal.jsStr s => !(s == "")

/-- The JS or-operator on values: the left operand if truthy, else the right one. -/
def jsOr (a b : JsVal) : JsVal :=
  if jsTruthy a then a else b

/-- JS string coercion of a value, as performed by string concatenation. -/
def jsValToString : JsVal → String
  | JsVal.undef => "undefined"
  | JsVal.jsNull => "null"
  | JsVal.jsStr s => s

/-- JS strict equality of a pipeline value against a string literal. -/
def jsStrictEqStr (v : JsVal) (s : String) : Bool :=
  match v with
  | JsVal.jsStr t => t == s
  | _ => false

/-- Required baseline keys of every envelope (source constant requiredKeys). -/
def requiredKeys : List String :=
  ["Message", "MessageId", "Timestamp", "TopicArn", "Type",
   "Signature", "SigningCertURL", "SignatureVersion"]

/-- Additional keys required of subscription-control envelopes. -/
def subscriptionControlKeys : List String :=
  ["SubscribeURL", "Token"]

/-- The two subscription-control message types. -/
def subscriptionControlMessageTypes : List String :=
  ["SubscriptionConfirmation", "UnsubscribeConfirmation"]

/-- Ordered signable field list for ordinary notifications. -/
def signableKeysForNotification : List String :=
  ["Message", "MessageId", "Subject", "SubscribeURL", "Timestamp", "TopicArn", "Type"]

/-- Ordered signable field list for subscription confirmations. -/
def signableKeysForSubscription : List String :=
  ["Message", "MessageId", "Subject", "SubscribeURL", "Timestamp", "Token", "TopicArn", "Type"]

/-- Trailing-match test of one string against another (the anchored-at-end regex
test in hashHasKey): the final characters of the first string are the second. -/
def strEndsWith (s t : String) : Bool :=
  s.data.drop (s.data.length - t.data.length) == t.data

/-- The alternate-cased key obtained by replacing a trailing URL with Url
(the regex replace in hashHasKey). -/
def urlAltKey (k : String) : String :=
  String.mk (k.data.take (k.data.length - 3)) ++ "Url"

/-- Source function hashHasKey: a key counts as present if it is in the hash, or
if it ends in URL and the Url-cased alternate is in the hash. -/
def hashHasKey (m : Envelope) (k : String) : Bool :=
  if !(hasKey m k) then
    if strEndsWith k "URL" && hasKey m (urlAltKey k) then
      true
    else
      false
  else
    true

/-- Source function hashHasKeys: every key of the list passes hashHasKey. -/
def hashHasKeys (m : Envelope) (keys : List String) : Bool :=
  keys.all (fun k => hashHasKey m k)

/-- Source function indexOf: first index of the value in the array under JS
strict equality, or -1. -/
def indexOf (arr : List String) (v : JsVal) : Int :=
  match arr with
  | [] => -1
  | a :: rest =>
    if jsStrictEqStr v a then 0
    else
      let r := indexOf rest v
      if r < 0 then -1 else r + 1

/-- Source function validateMessageStructure: the baseline keys must pass
hashHasKeys, and for subscription-control types the control keys too. -/
def validateMessageStructure (m : Envelope) : Bool :=
  let valid := hashHasKeys m requiredKeys
  if indexOf subscriptionControlMessageTypes (jsIndex m "Type") > -1 then
    valid && hashHasKeys m subscriptionControlKeys
  else
    valid

/-- The lodash isNil test on a JS value: true exactly on undefined and null. -/
def isNilJs : JsVal → Bool
  | JsVal.undef => true
  | JsVal.jsNull => true
  | JsVal.jsStr _ => false

/-- One iteration of the signing loop: the text fed to the digest for one signable
key (empty when the key is absent from the envelope or its value is nil). -/
def fieldUpdate (m : Envelope) (k : String) : String :=
  if hasKey m k && !(isNilJs (jsIndex m k)) then
    k ++ "\n" ++ jsValToString (jsIndex m k) ++ "\n"
  else
    ""

/-- The canonical string fed to the digest: concatenation of the per-key updates
in the fixed order of the signable key list. -/
def canonicalString (m : Envelope) (keys : List String) : String :=
  match keys with
  | [] => ""
  | k :: rest => fieldUpdate m k ++ canonicalString m rest

/-- Selection of the signable key list in validateSignature: the subscription list
exactly when Type is strictly equal to the string SubscriptionConfirmation. -/
def selectSignableKeys (m : Envelope) : List String :=
  if jsStrictEqStr (jsIndex m "Type") "SubscriptionConfirmation" then
    signableKeysForSubscription
  else
    signableKeysForNotification

/-- Outcome of the platform RSA verify call: a boolean result, or a raised
exception carrying an error message. -/
inductive VerifyOutcome where
  | res : Bool → VerifyOutcome
  | threw : String → VerifyOutcome
deriving DecidableEq, Repr

/-- A single invocation of the completion callback: error-first or message. -/
inductive CbCall where
  | err : String → CbCall
  | ok : Envelope → CbCall
deriving DecidableEq, Repr

/-- Outcome of the HTTPS GET issued for an uncached certificate URL: a response
with a status code and body chunks, or a transport-level error event. -/
inductive HttpsResult where
  | response : Nat → List String → HttpsResult
  | failure : String → HttpsResult

/-- The network oracle: what the HTTPS collaborator returns for each URL. -/
abbrev Network := String → HttpsResult

/-- The verifier oracle: the boolean result or exception of verifier.verify,
as a function of the canonical string, the certificate blob and the Signature
field value. -/
abbrev Verifier := String → String → JsVal → VerifyOutcome

/-- Source function getCertificate, with the cache threaded as state. Returns the
new cache, whether a network request was issued, and the callback payload: a
cache hit resolves immediately with the cached blob; otherwise one GET is made,
a non-200 status is a terminal retrieval error with nothing cached, and a
successful body is joined, cached, and returned. -/
def getCertificate (cache : Cache) (certUrl : String) (net : Network) :
    Cache × Bool × Except String String :=
  match lookupA cache certUrl with
  | some blob => (cache, false, Except.ok blob)
  | none =>
    match net certUrl with
    | HttpsResult.failure e => (cache, true, Except.error e)
    | HttpsResult.response status chunks =>
      if status ≠ 200 then
        (cache, true, Except.error "Certificate could not be retrieved")
      else
        let blob := String.join chunks
        (setA cache certUrl blob, true, Except.ok blob)

/-- A parsed URL as produced by the platform URL parser: the components consulted
by validateUrl, each possibly null. -/
structure ParsedUrl where
  protocol : Option String
  host : Option String
  path : Option String
deriving DecidableEq, Repr

/-- The JS substr(-4): the final four characters, or the whole string if shorter. -/
def jsSubstrNeg4 (s : String) : String :=
  String.mk (s.data.drop (s.data.length - 4))

/-- A regex test call in JS coerces a null argument to the string null. -/
def regexTestArg : Option String → String
  | none => "null"
  | some h => h

/-- Character class of the region part of the default host pattern:
ASCII letters, digits and hyphen. -/
def isRegionChar (c : Char) : Bool :=
  c.isAlpha || c.isDigit || c == '-'

/-- Consume an expected literal run of characters, returning the remainder. -/
def dropLit : List Char → List Char → Option (List Char)
  | [], s => some s
  | _ :: _, [] => none
  | p :: ps, c :: cs => if c = p then dropLit ps cs else none

/-- Anchored matcher of the default trust pattern over a character list: the
literal sns-dot head, a greedy run of at least three region characters, then
exactly the amazonaws-dot-com tail, optionally with the China-partition tail.
(The greedy run is exact: no region character can begin the literal tail, so the
backtracking regex accepts the same language.) -/
def defaultHostPatternL (cs : List Char) : Bool :=
  match dropLit "sns.".data cs with
  | none => false
  | some rest =>
    let region := rest.takeWhile isRegionChar
    let tail := rest.dropWhile isRegionChar
    decide (3 ≤ region.length) &&
      (tail == ".amazonaws.com".data || tail == ".amazonaws.com.cn".data)

/-- The default trust pattern of the source (its host regex) as a test on hosts. -/
def defaultHostPattern (s : String) : Bool :=
  defaultHostPatternL s.data

/-- Source function validateUrl on an already-parsed URL: protocol strictly
equals the https scheme, then the final four characters of path are the pem
extension (reading path throws a TypeError when it is null), then the host —
coerced to the string null when null — passes the trust pattern. -/
def validateUrl (p : ParsedUrl) (hostPattern : String → Bool) : Except String Bool :=
  if p.protocol == some "https:" then
    match p.path with
    | none => Except.error "TypeError: Cannot read property substr of null"
    | some pa => Except.ok (jsSubstrNeg4 pa == ".pem" && hostPattern (regexTestArg p.host))
  else
    Except.ok false

/-- Modelled from the platform URL parser (an external collaborator, not code of
this repository): it throws a TypeError unless its argument is a string; a
string with no colon parses with null protocol and host and the string itself
as path; a scheme followed by a double slash yields the lowercased authority as
host and the remainder (or a lone slash) as path; a scheme without slashes
yields a null host and the remainder (null when empty) as path. -/
def urlParseStr (s : String) : ParsedUrl :=
    let cs := s.data
    let scheme := cs.takeWhile (fun c => c ≠ ':')
    let rest := cs.dropWhile (fun c => c ≠ ':')
    match rest with
    | [] => ⟨none, none, some s⟩
    | _ :: afterColon =>
      let proto := String.mk (scheme.map Char.toLower) ++ ":"
      match afterColon with
      | '/' :: '/' :: afterSlashes =>
        let auth := afterSlashes.takeWhile (fun c => c ≠ '/' && c ≠ '?' && c ≠ '#')
        let tail := afterSlashes.dropWhile (fun c => c ≠ '/' && c ≠ '?' && c ≠ '#')
        ⟨some proto, some (String.mk (auth.map Char.toLower)),
          some (if tail.isEmpty then "/" else String.mk tail)⟩
      | [] => ⟨some proto, none, none⟩
      | other => ⟨some proto, none, some (String.mk other)⟩

/-- Modelled from the platform URL parser: the call on a JS value, throwing a
TypeError on undefined and null arguments. -/
def urlParseModel : JsVal → Except String ParsedUrl
  | JsVal.jsStr s => Except.ok (urlParseStr s)
  | JsVal.undef => Except.error "TypeError: Parameter url must be a string, not undefined"
  | JsVal.jsNull => Except.error "TypeError: Parameter url must be a string, not null"

/-- The validateUrl call as it appears in the pipeline: parse the JS value with
the platform parser, then apply the parsed-URL checks; exceptions propagate. -/
def validateUrlJs (v : JsVal) (hostPattern : String → Bool) : Except String Bool :=
  match urlParseModel v with
  | Except.error e => Except.error e
  | Except.ok p => validateUrl p hostPattern

/-- The certificate URL expression of the source: the canonical field,
or-defaulted to the alternate-cased field. -/
def certUrlExpr (m : Envelope) : JsVal :=
  jsOr (jsIndex m "SigningCertURL") (jsIndex m "SigningCertUrl")

/-- Source function validateSignature: reject a version other than the string 1
naming the version; build the canonical string over the selected key list; fetch
the certificate (a non-string URL makes the HTTPS client throw); then dispatch
on the verifier: a fetch error is passed through, a true verdict completes with
the message, a false verdict is the invalid-signature error, and a raised
exception is caught and passed to the callback as-is. Returns the callback
invocations, the new cache and the number of network requests; a Lean-level
error is a JS exception escaping the call. -/
def validateSignature (m : Envelope) (cache : Cache) (net : Network) (verify : Verifier) :
    Except String (List CbCall × Cache × Nat) :=
  if !(jsStrictEqStr (jsIndex m "SignatureVersion") "1") then
    Except.ok ([CbCall.err ("The signature version "
      ++ jsValToString (jsIndex m "SignatureVersion") ++ " is not supported.")], cache, 0)
  else
    match certUrlExpr m with
    | JsVal.jsStr certUrl =>
      match getCertificate cache certUrl net with
      | (cache2, used, Except.error e) =>
        Except.ok ([CbCall.err e], cache2, if used then 1 else 0)
      | (cache2, used, Except.ok cert) =>
        match verify (canonicalString m (selectSignableKeys m)) cert (jsIndex m "Signature") with
        | VerifyOutcome.res true =>
          Except.ok ([CbCall.ok m], cache2, if used then 1 else 0)
        | VerifyOutcome.res false =>
          Except.ok ([CbCall.err "The message signature is invalid."], cache2,
            if used then 1 else 0)
        | VerifyOutcome.threw e =>
          Except.ok ([CbCall.err e], cache2, if used then 1 else 0)
    | _ => Except.error "TypeError: https.get argument must be a string"

/-- Source method validate: structure check first (missing-keys error), then the
certificate-URL domain check (invalid-domain error, with URL-parser exceptions
escaping), then validateSignature. -/
def validate (hostPattern : String → Bool) (cache : Cache) (hash : Envelope)
    (net : Network) (verify : Verifier) : Except String (List CbCall × Cache × Nat) :=
  if !(validateMessageStructure hash) then
    Except.ok ([CbCall.err "Message missing required keys."], cache, 0)
  else
    match validateUrlJs (certUrlExpr hash) hostPattern with
    | Except.error e => Except.error e
    | Except.ok b =>
      if !b then
        Except.ok ([CbCall.err "The certificate is located on an invalid domain."], cache, 0)
      else
        validateSignature hash cache net verify

/-- The alternate-to-canonical field-name table of the normalizer. -/
def lambdaMessageKeys : List (String × String) :=
  [("SigningCertUrl", "SigningCertURL"), ("UnsubscribeUrl", "UnsubscribeURL")]

/-- One iteration of the normalizer loop: when the alternate key is present,
assign its value to the canonical key. -/
def convertStep (m : Envelope) (alt canon : String) : Envelope :=
  match lookupA m alt with
  | some v => setA m canon v
  | none => m

/-- Source function convertLambdaMessage: copy each alternate-cased key onto its
canonical name when present, then delete a Subject key whose value is null. -/
def convertLambdaMessage (m : Envelope) : Envelope :=
  let m1 := convertStep m "SigningCertUrl" "SigningCertURL"
  let m2 := convertStep m1 "UnsubscribeUrl" "UnsubscribeURL"
  if lookupA m2 "Subject" = some Value.nullV then
    removeA m2 "Subject"
  else
    m2

/-- Spec-side description of one field's contribution to the signed text: the
field name, a newline, the field value and a newline when the field is present
with a non-null value, and nothing otherwise. -/
def specFieldText (m : Envelope) (k : String) : String :=
  match lookupA m k with
  | some (Value.strV v) => k ++ "\n" ++ v ++ "\n"
  | _ => ""

/-- Concatenation of a list of strings in order. -/
def joinAll : List String → String
  | [] => ""
  | x :: rest => x ++ joinAll rest

/-- Spec-side presence of a required key: the canonical name is a key of the
envelope, or the name ends in URL and the Url-cased alternate is a key. -/
def keyPresentOrAlt (m : Envelope) (k : String) : Prop :=
  hasKey m k = true ∨ (strEndsWith k "URL" = true ∧ hasKey m (urlAltKey k) = true)

/-- A structurally valid notification envelope used as a concrete test vector. -/
def envBase : Envelope :=
  [("Message", Value.strV "m"), ("MessageId", Value.strV "1"),
   ("Timestamp", Value.strV "t"), ("TopicArn", Value.strV "a"),
   ("Type", Value.strV "Notification"), ("Signature", Value.strV "sig"),
   ("SigningCertURL", Value.strV "https://sns.us-east-1.amazonaws.com/cert.pem"),
   ("SignatureVersion", Value.strV "1")]

/-- The same envelope with the certificate URL under the alternate-cased key only. -/
def envAltUrl : Envelope :=
  [("Message", Value.strV "m"), ("MessageId", Value.strV "1"),
   ("Timestamp", Value.strV "t"), ("TopicArn", Value.strV "a"),
   ("Type", Value.strV "Notification"), ("Signature", Value.strV "sig"),
   ("SigningCertUrl", Value.strV "https://sns.us-east-1.amazonaws.com/cert.pem"),
   ("SignatureVersion", Value.strV "1")]

/-- The same envelope with an explicit null value under the certificate-URL key. -/
def envNullCert : Envelope :=
  [("Message", Value.strV "m"), ("MessageId", Value.strV "1"),
   ("Timestamp", Value.strV "t"), ("TopicArn", Value.strV "a"),
   ("Type", Value.strV "Notification"), ("Signature", Value.strV "sig"),
   ("SigningCertURL", Value.nullV), ("SignatureVersion", Value.strV "1")]

/-- The same envelope with the certificate URL on an untrusted host. -/
def envBadDomain : Envelope :=
  [("Message", Value.strV "m"), ("MessageId", Value.strV "1"),
   ("Timestamp", Value.strV "t"), ("TopicArn", Value.strV "a"),
   ("Type", Value.strV "Notification"), ("Signature", Value.strV "sig"),
   ("SigningCertURL", Value.strV "https://evil.example.com/cert.pem"),
   ("SignatureVersion", Value.strV "1")]

/-- A network oracle always answering success with one body chunk. -/
def netOk : Network := fun _ => HttpsResult.response 200 ["CERT"]

/-- A network oracle always answering a forbidden status. -/
def net403 : Network := fun _ => HttpsResult.response 403 ["denied"]

/-- A verifier oracle that always reports a valid signature. -/
def verTrue : Verifier := fun _ _ _ => VerifyOutcome.res true

/-- The message of a typical exception raised by the platform verifier on a
malformed certificate blob. -/
def pemReadFailure : String :=
  "error:0906D06C:PEM routines:PEM_read_bio:no start line"

/-- A verifier oracle that always raises the malformed-certificate exception. -/
def verThrewPem : Verifier := fun _ _ _ => VerifyOutcome.threw pemReadFailure

/-- Lookup after assignment: the assigned key reads the new value, others are
unchanged. -/
theorem lookupA_setA {β : Type} (m : List (String × β)) (k k' : String) (v : β) :
    lookupA (setA m k v) k' = if k = k' then some v else lookupA m k' := by
  induction m with
  | nil =>
    simp [setA, lookupA]
  | cons p rest ih =>
    obtain ⟨a, b⟩ := p
    by_cases h : a = k
    · subst h
      by_cases h2 : a = k'
      · subst h2
        simp [setA, lookupA]
      · simp [setA, lookupA, h2]
    · by_cases h2 : a = k'
      · subst h2
        have hk : ¬ k = a := fun hh => h hh.symm
        simp [setA, lookupA, h, hk]
      · simp [setA, lookupA, h, h2, ih]

/-- Lookup after deletion: the deleted key reads absent, others are unchanged. -/
theorem lookupA_removeA {β : Type} (m : List (String × β)) (k k' : String) :
    lookupA (removeA m k) k' = if k = k' then none else lookupA m k' := by
  induction m with
  | nil => simp [removeA, lookupA]
  | cons p rest ih =>
    obtain ⟨a, b⟩ := p
    by_cases h : a = k
    · subst h
      by_cases h2 : a = k'
      · subst h2
        simp [removeA, ih]
      · simp [removeA, lookupA, h2, ih]
    · by_cases h2 : a = k'
      · subst h2
        have hk : ¬ k = a := fun hh => h hh.symm
        simp [removeA, lookupA, h, hk]
      · simp [removeA, lookupA, h, h2, ih]

/-- The per-key signing-loop text agrees with its spec-side description. -/
theorem fieldUpdate_eq_specFieldText (m : Envelope) (k : String) :
    fieldUpdate m k = specFieldText m k := by
  cases h : lookupA m k with
  | none => simp [fieldUpdate, specFieldText, hasKey, jsIndex, h]
  | some v =>
    cases v <;>
      simp [fieldUpdate, specFieldText, hasKey, jsIndex, isNilJs, jsValToString, h]

/-- Deleting a null-valued key does not change any per-key signing text. -/
theorem fieldUpdate_removeA (m : Envelope) (k j : String)
    (hj : lookupA m j = some Value.nullV) :
    fieldUpdate (removeA m j) k = fieldUpdate m k := by
  by_cases hk : j = k
  · subst hk
    simp [fieldUpdate, hasKey, jsIndex, lookupA_removeA, hj, isNilJs]
  · simp [fieldUpdate, hasKey, jsIndex, lookupA_removeA, if_neg hk]

/-- C1. For every envelope and signable field list, the canonical string is the
in-order concatenation, over the list, of name-newline-value-newline for each
field present with a non-null value and nothing for absent or null fields; in
particular an envelope whose Subject is null signs exactly the same text as the
envelope with Subject removed. -/
theorem c1_canonical_string (m : Envelope) (ks : List String) :
    (canonicalString m ks = joinAll (ks.map (specFieldText m))) ∧
    (lookupA m "Subject" = some Value.nullV →
      canonicalString m ks = canonicalString (removeA m "Subject") ks) := by
  constructor
  · induction ks with
    | nil => rfl
    | cons k rest ih =>
      simp [canonicalString, joinAll, fieldUpdate_eq_specFieldText, ih]
  · intro h
    induction ks with
    | nil => rfl
    | cons k rest ih =>
      simp [canonicalString, fieldUpdate_removeA _ _ _ h, ih]

/-- Witness for C1 at a concrete envelope with a null Subject. -/
theorem c1_canonical_string_witness :
    lookupA ([("Subject", Value.nullV), ("Message", Value.strV "hi")] : Envelope)
        "Subject" = some Value.nullV ∧
    canonicalString [("Subject", Value.nullV), ("Message", Value.strV "hi")]
        signableKeysForNotification =
      canonicalString
        (removeA [("Subject", Value.nullV), ("Message", Value.strV "hi")] "Subject")
        signableKeysForNotification :=
  ⟨by decide, (c1_canonical_string _ _).2 (by decide)⟩

/-- C3. The code classifies UnsubscribeConfirmation as a subscription-control
type for the structural check, yet the signature verifier selects the
notification field list (without Token) for it, differing from the subscription
field list: evaluation of the selection at the failing input. -/
theorem c3_unsubscribe_field_selection :
    selectSignableKeys [("Type", Value.strV "UnsubscribeConfirmation")] =
        signableKeysForNotification ∧
    signableKeysForNotification ≠ signableKeysForSubscription ∧
    indexOf subscriptionControlMessageTypes
        (JsVal.jsStr "UnsubscribeConfirmation") > -1 ∧
    "Token" ∈ signableKeysForSubscription ∧
    "Token" ∉ signableKeysForNotification := by
  refine ⟨by decide, by decide, by decide, by decide, by decide⟩

/-- The presence check of hashHasKey is presence of the canonical key or of the
Url-cased alternate of a URL-tailed key. -/
theorem hashHasKey_iff (m : Envelope) (k : String) :
    hashHasKey m k = true ↔ keyPresentOrAlt m k := by
  cases h : hasKey m k with
  | true => simp [hashHasKey, keyPresentOrAlt, h]
  | false =>
    cases h1 : strEndsWith k "URL" <;>
      cases h2 : hasKey m (urlAltKey k) <;>
        simp [hashHasKey, keyPresentOrAlt, h, h1, h2]

/-- JS strict equality against a string literal holds exactly for that string. -/
theorem jsStrictEqStr_iff (v : JsVal) (s : String) :
    jsStrictEqStr v s = true ↔ v = JsVal.jsStr s := by
  cases v <;> simp [jsStrictEqStr]

/-- The subscription-control membership test of the structural validator holds
exactly for the two control type strings. -/
theorem indexOf_ctrl_pos (v : JsVal) :
    indexOf subscriptionControlMessageTypes v > -1 ↔
      (v = JsVal.jsStr "SubscriptionConfirmation" ∨
       v = JsVal.jsStr "UnsubscribeConfirmation") := by
  cases v with
  | undef => decide
  | jsNull => decide
  | jsStr t =>
    by_cases h1 : t = "SubscriptionConfirmation"
    · subst h1
      decide
    · by_cases h2 : t = "UnsubscribeConfirmation"
      · subst h2
        decide
      · simp [subscriptionControlMessageTypes, indexOf, jsStrictEqStr, h1, h2]

/-- Characterization of the structural validator: the baseline keys are present
(canonically or alternate-cased), and for the two control types the control
keys too. -/
theorem validateMessageStructure_iff (m : Envelope) :
    validateMessageStructure m = true ↔
      ((∀ k ∈ requiredKeys, keyPresentOrAlt m k) ∧
       ((jsIndex m "Type" = JsVal.jsStr "SubscriptionConfirmation" ∨
         jsIndex m "Type" = JsVal.jsStr "UnsubscribeConfirmation") →
        ∀ k ∈ subscriptionControlKeys, keyPresentOrAlt m k)) := by
  by_cases h : indexOf subscriptionControlMessageTypes (jsIndex m "Type") > -1
  · have hd := (indexOf_ctrl_pos (jsIndex m "Type")).mp h
    simp [validateMessageStructure, hashHasKeys, h, hd, List.all_eq_true, hashHasKey_iff]
  · have hd : ¬(jsIndex m "Type" = JsVal.jsStr "SubscriptionConfirmation" ∨
        jsIndex m "Type" = JsVal.jsStr "UnsubscribeConfirmation") :=
      fun hc => h ((indexOf_ctrl_pos (jsIndex m "Type")).mpr hc)
    simp [validateMessageStructure, hashHasKeys, h, hd, List.all_eq_true, hashHasKey_iff]

/-- Counterexample to C6 as stated: an envelope carrying the certificate URL
only under the alternate-cased key passes the structural validator although the
canonical baseline key SigningCertURL is not present as a key. -/
theorem c6_present_as_keys_counterexample :
    validateMessageStructure envAltUrl = true ∧
    lookupA envAltUrl "SigningCertURL" = none := by
  refine ⟨by decide, by decide⟩

/-- C6 amended. The structural validator accepts exactly when every baseline
key is present either canonically or, for URL-tailed names, under the Url-cased
alternate — presence of the key, not truthiness of its value — plus, for the
two subscription-control types, the two control keys under the same rule; and a
structurally failing envelope is always completed with the missing-required-keys
error. -/
theorem c6_structure_amended :
    (∀ m : Envelope, validateMessageStructure m = true ↔
      ((∀ k ∈ requiredKeys, keyPresentOrAlt m k) ∧
       ((jsIndex m "Type" = JsVal.jsStr "SubscriptionConfirmation" ∨
         jsIndex m "Type" = JsVal.jsStr "UnsubscribeConfirmation") →
        ∀ k ∈ subscriptionControlKeys, keyPresentOrAlt m k))) ∧
    (∀ (pat : String → Bool) (cache : Cache) (hash : Envelope)
        (net : Network) (verify : Verifier),
      validateMessageStructure hash = false →
      validate pat cache hash net verify =
        Except.ok ([CbCall.err "Message missing required keys."], cache, 0)) := by
  refine ⟨validateMessageStructure_iff, ?_⟩
  intro pat cache hash net verify h
  simp [validate, h]

/-- Witness for C6 amended at a concrete structurally invalid envelope. -/
theorem c6_structure_amended_witness :
    validate defaultHostPattern [] [("foo", Value.strV "bar")] netOk verTrue =
      Except.ok ([CbCall.err "Message missing required keys."], [], 0) :=
  c6_structure_amended.2 defaultHostPattern [] [("foo", Value.strV "bar")]
    netOk verTrue (by decide)

/-- Lookup after one normalizer iteration: the canonical key reads the
alternate key's value when that key is present, and everything else is
unchanged. -/
theorem lookupA_convertStep (m : Envelope) (alt canon k : String) :
    lookupA (convertStep m alt canon) k =
      if canon = k then
        (match lookupA m alt with
         | some v => some v
         | none => lookupA m k)
      else lookupA m k := by
  unfold convertStep
  cases h : lookupA m alt with
  | none => simp [h]
  | some v => simp [h, lookupA_setA]

/-- Counterexample to C7 as stated: when both casings are present, the
normalizer overwrites the canonical key with the alternate key's value instead
of keeping the canonical value. -/
theorem c7_overwrite_counterexample :
    lookupA (convertLambdaMessage
        [("SigningCertURL", Value.strV "a"), ("SigningCertUrl", Value.strV "b")])
      "SigningCertURL" = some (Value.strV "b") ∧
    (some (Value.strV "b") : Option Value) ≠ some (Value.strV "a") := by
  refine ⟨by decide, by decide⟩

/-- C7 amended. The normalizer writes each canonical key whenever its
alternate-cased key is present, copying the alternate's value and overwriting
any existing canonical value; when the alternate key is absent the canonical
key is left unchanged. -/
theorem c7_normalizer_amended (m : Envelope) :
    lookupA (convertLambdaMessage m) "SigningCertURL" =
      (match lookupA m "SigningCertUrl" with
       | some v => some v
       | none => lookupA m "SigningCertURL") ∧
    lookupA (convertLambdaMessage m) "UnsubscribeURL" =
      (match lookupA m "UnsubscribeUrl" with
       | some v => some v
       | none => lookupA m "UnsubscribeURL") := by
  have h2 : ∀ k, k ≠ "Subject" →
      lookupA (convertLambdaMessage m) k =
      lookupA (convertStep (convertStep m "SigningCertUrl" "SigningCertURL")
        "UnsubscribeUrl" "UnsubscribeURL") k := by
    intro k hk
    have hk2 : ¬("Subject" : String) = k := fun h => hk h.symm
    unfold convertLambdaMessage
    by_cases hs : lookupA (convertStep (convertStep m "SigningCertUrl" "SigningCertURL")
        "UnsubscribeUrl" "UnsubscribeURL") "Subject" = some Value.nullV
    · simp [hs, lookupA_removeA, hk2]
    · simp [hs]
  constructor
  · rw [h2 _ (by decide)]
    simp [lookupA_convertStep]
  · rw [h2 _ (by decide)]
    simp [lookupA_convertStep]

/-- C9. A response with any status other than 200 for an uncached certificate
URL makes the fetch report the terminal retrieval error and leaves the cache
unchanged, so the response body is not stored. -/
theorem c9_non_200_not_cached (cache : Cache) (url : String) (net : Network)
    (status : Nat) (chunks : List String)
    (hmiss : lookupA cache url = none)
    (hresp : net url = HttpsResult.response status chunks)
    (hstatus : status ≠ 200) :
    getCertificate cache url net =
      (cache, true, Except.error "Certificate could not be retrieved") := by
  simp [getCertificate, hmiss, hresp, hstatus]

/-- Witness for C9 at a concrete uncached URL and a forbidden status. -/
theorem c9_non_200_not_cached_witness :
    getCertificate [] "https://sns.us-east-1.amazonaws.com/cert.pem" net403 =
      ([], true, Except.error "Certificate could not be retrieved") :=
  c9_non_200_not_cached [] "https://sns.us-east-1.amazonaws.com/cert.pem" net403
    403 ["denied"] (by decide) (by rfl) (by decide)

/-- C10. The alternate-casing fallback of the structural key check applies to
every key whose name ends in URL: the key counts as present exactly when the
canonical name is a key or the name ends in URL and the Url-cased name is a
key; the SubscribeURL requirement in particular ends in URL, its alternate is
SubscribeUrl, and an envelope carrying SubscribeUrl passes the SubscribeURL
check. -/
theorem c10_url_suffix_fallback :
    (∀ (m : Envelope) (k : String), hashHasKey m k = true ↔ keyPresentOrAlt m k) ∧
    (strEndsWith "SubscribeURL" "URL" = true ∧
      urlAltKey "SubscribeURL" = "SubscribeUrl") ∧
    (∀ m : Envelope, hasKey m "SubscribeUrl" = true →
      hashHasKey m "SubscribeURL" = true) := by
  refine ⟨hashHasKey_iff, ⟨by decide, by decide⟩, ?_⟩
  intro m h
  rw [hashHasKey_iff]
  right
  refine ⟨by decide, ?_⟩
  rw [show urlAltKey "SubscribeURL" = "SubscribeUrl" from by decide]
  exact h

/-- Witness for C10 at a concrete envelope carrying only the Url-cased key. -/
theorem c10_url_suffix_fallback_witness :
    hashHasKey [("SubscribeUrl", Value.strV "https://x.pem")] "SubscribeURL" = true :=
  c10_url_suffix_fallback.2.2 [("SubscribeUrl", Value.strV "https://x.pem")] (by decide)

/-- Counterexample to C2 as stated: when the verifier raises an exception, the
callback receives that exception itself, which differs from the terminal
invalid-signature error produced by an explicit mismatch, so the caller can
distinguish the two cases. -/
theorem c2_exception_counterexample :
    validateSignature envBase [] netOk verThrewPem =
      Except.ok ([CbCall.err pemReadFailure],
        [("https://sns.us-east-1.amazonaws.com/cert.pem", "CERT")], 1) ∧
    pemReadFailure ≠ "The message signature is invalid." := by
  refine ⟨by rfl, by decide⟩

/-- C2 amended. Whenever the verification step raises an exception after a
successful certificate fetch, the exception is caught and the validator still
completes through the callback with exactly one terminal error — but that error
is the raised exception itself, not the invalid-signature error of an explicit
mismatch. -/
theorem c2_exception_amended (m : Envelope) (cache : Cache) (net : Network)
    (verify : Verifier) (u cert e : String) (cache2 : Cache) (used : Bool)
    (hver : jsStrictEqStr (jsIndex m "SignatureVersion") "1" = true)
    (hurl : certUrlExpr m = JsVal.jsStr u)
    (hfetch : getCertificate cache u net = (cache2, used, Except.ok cert))
    (hthrew : verify (canonicalString m (selectSignableKeys m)) cert
      (jsIndex m "Signature") = VerifyOutcome.threw e) :
    validateSignature m cache net verify =
      Except.ok ([CbCall.err e], cache2, if used then 1 else 0) := by
  simp [validateSignature, hver, hurl, hfetch, hthrew]

/-- Witness for C2 amended at a concrete envelope and a throwing verifier. -/
theorem c2_exception_amended_witness :
    validateSignature envBase [] netOk verThrewPem =
      Except.ok ([CbCall.err pemReadFailure],
        [("https://sns.us-east-1.amazonaws.com/cert.pem", "CERT")], 1) :=
  c2_exception_amended envBase [] netOk verThrewPem
    "https://sns.us-east-1.amazonaws.com/cert.pem" "CERT" pemReadFailure
    [("https://sns.us-east-1.amazonaws.com/cert.pem", "CERT")] true
    (by decide) (by decide) (by rfl) (by rfl)

/-- Counterexample to C5 as stated: an envelope that passes the structural
check with a null-valued certificate-URL key makes the URL parser throw, so the
invocation escapes with a synchronous exception and the callback is invoked
zero times. -/
theorem c5_zero_callbacks_counterexample :
    validate defaultHostPattern [] envNullCert netOk verTrue =
      Except.error "TypeError: Parameter url must be a string, not undefined" := by
  rfl

/-- C5 amended. Every invocation of validate either escapes with a synchronous
exception — invoking the callback zero times, as happens for a present but
null certificate-URL value — or invokes the callback exactly once, with one
classified error or the envelope; it never invokes the callback more than
once. -/
theorem c5_single_completion_amended (pat : String → Bool) (cache : Cache)
    (hash : Envelope) (net : Network) (verify : Verifier) :
    (∃ e, validate pat cache hash net verify = Except.error e) ∨
    (∃ c cache2 n, validate pat cache hash net verify =
      Except.ok ([c], cache2, n)) := by
  unfold validate validateSignature
  repeat' split
  all_goals first
    | exact Or.inl ⟨_, rfl⟩
    | exact Or.inr ⟨_, _, _, rfl⟩

/-- A cache hit resolves with the cached blob, no network use, same cache. -/
theorem getCertificate_hit (cache : Cache) (url : String) (net : Network)
    (blob : String) (hhit : lookupA cache url = some blob) :
    getCertificate cache url net = (cache, false, Except.ok blob) := by
  simp [getCertificate, hhit]

/-- After a successful fetch the returned blob is in the returned cache under
the fetched URL. -/
theorem getCertificate_ok_lookup (cache : Cache) (url : String) (net : Network)
    (cache1 : Cache) (used : Bool) (cert : String)
    (h : getCertificate cache url net = (cache1, used, Except.ok cert)) :
    lookupA cache1 url = some cert := by
  unfold getCertificate at h
  split at h
  · simp_all
  · split at h
    · simp_all
    · split at h
      · simp_all
      · simp only [Prod.mk.injEq, Except.ok.injEq] at h
        obtain ⟨h1, _, h3⟩ := h
        subst h1 h3
        simp [lookupA_setA]

/-- Any fetch outcome preserves every binding already in the cache. -/
theorem getCertificate_preserves (cache : Cache) (url : String) (net : Network)
    (cache1 : Cache) (used : Bool) (r : Except String String)
    (h : getCertificate cache url net = (cache1, used, r)) :
    ∀ k v, lookupA cache k = some v → lookupA cache1 k = some v := by
  intro k v hk
  unfold getCertificate at h
  split at h
  · simp_all
  · split at h
    · simp_all
    · split at h
      · simp_all
      · simp only [Prod.mk.injEq] at h
        obtain ⟨h1, _, _⟩ := h
        subst h1
        rw [lookupA_setA]
        by_cases hku : url = k
        · subst hku
          simp_all
        · simp [hku, hk]

/-- A successful validate run passed the structural and domain checks and ran
the signature stage. -/
theorem validate_ok_inversion (pat : String → Bool) (cache : Cache)
    (hash : Envelope) (net : Network) (verify : Verifier) (msg : Envelope)
    (cache1 : Cache) (n : Nat)
    (h : validate pat cache hash net verify =
      Except.ok ([CbCall.ok msg], cache1, n)) :
    validateMessageStructure hash = true ∧
    validateUrlJs (certUrlExpr hash) pat = Except.ok true ∧
    validateSignature hash cache net verify =
      Except.ok ([CbCall.ok msg], cache1, n) := by
  unfold validate at h
  split at h
  · simp_all
  · split at h
    · simp_all
    · split at h
      · simp_all
      · simp_all [Bool.not_eq_true]

/-- A successful signature stage fixed the version, fetched the certificate
through the cache, and got a positive verifier verdict on the canonical
string. -/
theorem validateSignature_ok_inversion (m : Envelope) (cache : Cache)
    (net : Network) (verify : Verifier) (msg : Envelope) (cache1 : Cache) (n : Nat)
    (h : validateSignature m cache net verify =
      Except.ok ([CbCall.ok msg], cache1, n)) :
    msg = m ∧ jsStrictEqStr (jsIndex m "SignatureVersion") "1" = true ∧
    ∃ u cert used, certUrlExpr m = JsVal.jsStr u ∧
      getCertificate cache u net = (cache1, used, Except.ok cert) ∧
      verify (canonicalString m (selectSignableKeys m)) cert (jsIndex m "Signature")
        = VerifyOutcome.res true ∧
      n = if used then 1 else 0 := by
  unfold validateSignature at h
  split at h
  · simp at h
  · rename_i hcond
    simp at hcond
    split at h
    · rename_i certUrl hequ
      split at h
      · simp at h
      · rename_i cache2 used cert heq2
        split at h
        · rename_i hv
          simp only [Except.ok.injEq, Prod.mk.injEq, List.cons.injEq,
            CbCall.ok.injEq, and_true] at h
          obtain ⟨hm, hc, hn⟩ := h
          subst hc
          exact ⟨hm.symm, hcond, certUrl, cert, used, hequ, heq2, hv, hn.symm⟩
        · simp at h
        · simp at h
    · simp at h

/-- The signature stage never drops or changes an existing cache binding. -/
theorem validateSignature_preserves (m : Envelope) (cache : Cache) (net : Network)
    (verify : Verifier) (cs : List CbCall) (cache1 : Cache) (n : Nat)
    (h : validateSignature m cache net verify = Except.ok (cs, cache1, n)) :
    ∀ k v, lookupA cache k = some v → lookupA cache1 k = some v := by
  intro k v hk
  unfold validateSignature at h
  split at h
  · simp only [Except.ok.injEq, Prod.mk.injEq] at h
    obtain ⟨_, hc, _⟩ := h
    exact hc ▸ hk
  · split at h
    · split at h
      · rename_i cache2 used e heq2
        simp only [Except.ok.injEq, Prod.mk.injEq] at h
        obtain ⟨_, hc, _⟩ := h
        exact hc ▸ getCertificate_preserves _ _ _ _ _ _ heq2 k v hk
      · rename_i cache2 used cert heq2
        split at h <;>
          (simp only [Except.ok.injEq, Prod.mk.injEq] at h
           obtain ⟨_, hc, _⟩ := h
           exact hc ▸ getCertificate_preserves _ _ _ _ _ _ heq2 k v hk)
    · simp at h

/-- C8. A URL already in the certificate cache resolves immediately with the
cached blob, with no network request and an unchanged cache; a validate run
never evicts or modifies an existing cache entry; and after a successful
validate run from an empty cache — which used at most one network fetch — a
second run of the same envelope succeeds identically with zero network
fetches. -/
theorem c8_certificate_cache :
    (∀ (cache : Cache) (url : String) (net : Network) (blob : String),
      lookupA cache url = some blob →
      getCertificate cache url net = (cache, false, Except.ok blob)) ∧
    (∀ (pat : String → Bool) (cache : Cache) (hash : Envelope) (net : Network)
        (verify : Verifier) (cs : List CbCall) (cache1 : Cache) (n : Nat),
      validate pat cache hash net verify = Except.ok (cs, cache1, n) →
      ∀ k v, lookupA cache k = some v → lookupA cache1 k = some v) ∧
    (∀ (pat : String → Bool) (hash : Envelope) (net : Network) (verify : Verifier)
        (msg : Envelope) (cache1 : Cache) (n : Nat),
      validate pat [] hash net verify = Except.ok ([CbCall.ok msg], cache1, n) →
      n ≤ 1 ∧ validate pat cache1 hash net verify =
        Except.ok ([CbCall.ok msg], cache1, 0)) := by
  refine ⟨getCertificate_hit, ?_, ?_⟩
  · intro pat cache hash net verify cs cache1 n h k v hk
    unfold validate at h
    split at h
    · simp only [Except.ok.injEq, Prod.mk.injEq] at h
      obtain ⟨_, hc, _⟩ := h
      exact hc ▸ hk
    · split at h
      · simp at h
      · split at h
        · simp only [Except.ok.injEq, Prod.mk.injEq] at h
          obtain ⟨_, hc, _⟩ := h
          exact hc ▸ hk
        · exact validateSignature_preserves _ _ _ _ _ _ _ h k v hk
  · intro pat hash net verify msg cache1 n h
    obtain ⟨hstruct, hurlok, hsig⟩ := validate_ok_inversion _ _ _ _ _ _ _ _ h
    obtain ⟨hmsg, hver, u, cert, used, hu, hget, hvtrue, hn⟩ :=
      validateSignature_ok_inversion _ _ _ _ _ _ _ hsig
    subst hmsg
    constructor
    · cases used <;> simp [hn]
    · have hlook := getCertificate_ok_lookup _ _ _ _ _ _ hget
      have hget2 := getCertificate_hit cache1 u net cert hlook
      have hsig2 : validateSignature msg cache1 net verify =
          Except.ok ([CbCall.ok msg], cache1, 0) := by
        simp [validateSignature, hver, hu, hget2, hvtrue]
      simp [validate, hstruct, hurlok, hsig2]

/-- Witness for C8 at a concrete pre-populated cache. -/
theorem c8_certificate_cache_witness :
    getCertificate [("https://sns.us-east-1.amazonaws.com/cert.pem", "BLOB")]
        "https://sns.us-east-1.amazonaws.com/cert.pem" netOk =
      ([("https://sns.us-east-1.amazonaws.com/cert.pem", "BLOB")], false,
        Except.ok "BLOB") :=
  c8_certificate_cache.1 [("https://sns.us-east-1.amazonaws.com/cert.pem", "BLOB")]
    "https://sns.us-east-1.amazonaws.com/cert.pem" netOk "BLOB" (by decide)

/-- Consuming a literal head succeeds exactly on strings starting with it. -/
theorem dropLit_eq_some (p : List Char) : ∀ (s r : List Char),
    dropLit p s = some r ↔ s = p ++ r := by
  induction p with
  | nil =>
    intro s r
    simp [dropLit]
  | cons pc prest ih =>
    intro s r
    cases s with
    | nil => simp [dropLit]
    | cons a as =>
      by_cases h : a = pc
      · subst h
        simp [dropLit, ih]
      · simp [dropLit, h]

/-- The while-scan of a run of satisfying characters followed by a failing
character splits exactly at that character. -/
theorem takeWhile_all_append (p : Char → Bool) (r : List Char) (c : Char)
    (t : List Char) (hr : r.all p = true) (hc : p c = false) :
    (r ++ c :: t).takeWhile p = r ∧ (r ++ c :: t).dropWhile p = c :: t := by
  induction r with
  | nil =>
    simp [List.takeWhile_cons, List.dropWhile_cons, hc]
  | cons a as ih =>
    simp only [List.all_cons, Bool.and_eq_true] at hr
    obtain ⟨ha, has⟩ := hr
    have ih2 := ih has
    simp [List.takeWhile_cons, List.dropWhile_cons, ha, ih2.1, ih2.2]

/-- Character-list characterization of the anchored default host pattern. -/
theorem defaultHostPatternL_iff (cs : List Char) :
    defaultHostPatternL cs = true ↔
      ∃ r : List Char,
        (cs = "sns.".data ++ r ++ ".amazonaws.com".data ∨
         cs = "sns.".data ++ r ++ ".amazonaws.com.cn".data) ∧
        3 ≤ r.length ∧ r.all isRegionChar = true := by
  constructor
  · intro h
    unfold defaultHostPatternL at h
    split at h
    · simp at h
    · rename_i rest hdrop
      rw [dropLit_eq_some] at hdrop
      subst hdrop
      simp only [Bool.and_eq_true, Bool.or_eq_true, decide_eq_true_eq,
        beq_iff_eq] at h
      obtain ⟨hlen, htail⟩ := h
      have hsplit := List.takeWhile_append_dropWhile isRegionChar rest
      refine ⟨rest.takeWhile isRegionChar, ?_, hlen, ?_⟩
      · have key : "sns.".data ++ rest =
            "sns.".data ++ (List.takeWhile isRegionChar rest ++
              List.dropWhile isRegionChar rest) := by
          rw [hsplit]
        cases htail with
        | inl h1 =>
          left
          rw [h1] at key
          rw [List.append_assoc]
          exact key.trans (by rfl)
        | inr h1 =>
          right
          rw [h1] at key
          rw [List.append_assoc]
          exact key.trans (by rfl)
      · rw [List.all_eq_true]
        intro x hx
        exact List.mem_takeWhile_imp hx
  · rintro ⟨r, hcs, hlen, hall⟩
    have hdot : isRegionChar '.' = false := by decide
    cases hcs with
    | inl h1 =>
      subst h1
      have hd : dropLit "sns.".data ("sns.".data ++ r ++ ".amazonaws.com".data) =
          some (r ++ ".amazonaws.com".data) :=
        (dropLit_eq_some _ _ _).mpr (List.append_assoc _ _ _)
      have hsp := takeWhile_all_append isRegionChar r '.' "amazonaws.com".data hall hdot
      unfold defaultHostPatternL
      rw [show (".amazonaws.com".data : List Char) = '.' :: "amazonaws.com".data from rfl] at hd ⊢
      simp only [hd]
      rw [hsp.1, hsp.2]
      simp [hlen]
    | inr h1 =>
      subst h1
      have hd : dropLit "sns.".data ("sns.".data ++ r ++ ".amazonaws.com.cn".data) =
          some (r ++ ".amazonaws.com.cn".data) :=
        (dropLit_eq_some _ _ _).mpr (List.append_assoc _ _ _)
      have hsp := takeWhile_all_append isRegionChar r '.' "amazonaws.com.cn".data hall hdot
      unfold defaultHostPatternL
      rw [show (".amazonaws.com.cn".data : List Char) = '.' :: "amazonaws.com.cn".data from rfl] at hd ⊢
      simp only [hd]
      rw [hsp.1, hsp.2]
      simp [hlen]

/-- String-level characterization of the default host pattern: exactly the
hosts of the form sns dot region dot amazonaws dot com, optionally with the
China-partition tail, where the region is at least three characters drawn from
letters, digits and hyphen. -/
theorem defaultHostPattern_iff (s : String) :
    defaultHostPattern s = true ↔
      ∃ r : String,
        (s = "sns." ++ r ++ ".amazonaws.com" ∨
         s = "sns." ++ r ++ ".amazonaws.com.cn") ∧
        3 ≤ r.length ∧ r.data.all isRegionChar = true := by
  unfold defaultHostPattern
  rw [defaultHostPatternL_iff]
  constructor
  · rintro ⟨r, hcs, hlen, hall⟩
    refine ⟨String.mk r, ?_, hlen, hall⟩
    cases hcs with
    | inl h1 =>
      left
      apply String.ext
      rw [String.data_append, String.data_append]
      exact h1
    | inr h1 =>
      right
      apply String.ext
      rw [String.data_append, String.data_append]
      exact h1
  · rintro ⟨r, hcs, hlen, hall⟩
    refine ⟨r.data, ?_, hlen, hall⟩
    cases hcs with
    | inl h1 =>
      left
      rw [h1, String.data_append, String.data_append]
    | inr h1 =>
      right
      rw [h1, String.data_append, String.data_append]

/-- The final-four-characters check of validateUrl holds exactly when the path
ends in the pem extension. -/
theorem jsSubstrNeg4_pem_iff (pa : String) :
    jsSubstrNeg4 pa = ".pem" ↔ ∃ pre : String, pa = pre ++ ".pem" := by
  constructor
  · intro h
    have hd : pa.data.drop (pa.data.length - 4) = ".pem".data := by
      have h2 := congrArg String.data h
      simpa [jsSubstrNeg4] using h2
    refine ⟨String.mk (pa.data.take (pa.data.length - 4)), ?_⟩
    apply String.ext
    rw [String.data_append]
    show pa.data = pa.data.take (pa.data.length - 4) ++ ".pem".data
    rw [← hd]
    exact (List.take_append_drop _ _).symm
  · rintro ⟨pre, rfl⟩
    apply String.ext
    show ((pre ++ ".pem" : String).data.drop
      ((pre ++ ".pem" : String).data.length - 4)) = ".pem".data
    rw [String.data_append, List.length_append]
    rw [show ((".pem" : String).data.length) = 4 from rfl]
    rw [show pre.data.length + 4 - 4 = pre.data.length from by omega]
    exact List.drop_left _ _

/-- Characterization of validateUrl on a parsed URL: it passes exactly when the
protocol is the https scheme, the path is non-null and ends in the pem
extension, and the host — with null coerced to the string null — passes the
trust pattern. -/
theorem validateUrl_iff (p : ParsedUrl) (pat : String → Bool) :
    validateUrl p pat = Except.ok true ↔
      (p.protocol = some "https:" ∧
       ∃ pa, p.path = some pa ∧ (∃ pre, pa = pre ++ ".pem") ∧
         pat (regexTestArg p.host) = true) := by
  cases hb : (p.protocol == some "https:") with
  | false =>
    have hprot : ¬ p.protocol = some "https:" := by
      simpa using hb
    simp [validateUrl, hb, hprot]
  | true =>
    have hprot : p.protocol = some "https:" := by
      simpa using hb
    cases hpath : p.path with
    | none => simp [validateUrl, hb, hpath, hprot]
    | some pa =>
      simp [validateUrl, hb, hpath, hprot, Bool.and_eq_true, beq_iff_eq,
        jsSubstrNeg4_pem_iff]

/-- C4. A parsed certificate URL passes domain validation exactly when its
scheme is https, the final four characters of its non-null path are the pem
extension, and its host passes the trust pattern; the default trust pattern
accepts exactly the hosts sns dot region dot amazonaws dot com with an
optional China-partition tail and a region of at least three characters of
letters, digits and hyphen, anchored in full; and any failing URL completes
the pipeline with the terminal invalid-domain error. -/
theorem c4_domain_validation :
    (∀ (p : ParsedUrl) (pat : String → Bool),
      validateUrl p pat = Except.ok true ↔
        (p.protocol = some "https:" ∧
         ∃ pa, p.path = some pa ∧ (∃ pre, pa = pre ++ ".pem") ∧
           pat (regexTestArg p.host) = true)) ∧
    (∀ s : String, defaultHostPattern s = true ↔
      ∃ r : String,
        (s = "sns." ++ r ++ ".amazonaws.com" ∨
         s = "sns." ++ r ++ ".amazonaws.com.cn") ∧
        3 ≤ r.length ∧ r.data.all isRegionChar = true) ∧
    (∀ (pat : String → Bool) (cache : Cache) (hash : Envelope) (net : Network)
        (verify : Verifier),
      validateMessageStructure hash = true →
      validateUrlJs (certUrlExpr hash) pat = Except.ok false →
      validate pat cache hash net verify =
        Except.ok ([CbCall.err "The certificate is located on an invalid domain."],
          cache, 0)) := by
  refine ⟨validateUrl_iff, defaultHostPattern_iff, ?_⟩
  intro pat cache hash net verify h1 h2
  simp [validate, h1, h2]

/-- Witness for C4 at a concrete envelope whose certificate URL sits on an
untrusted host. -/
theorem c4_domain_validation_witness :
    validate defaultHostPattern [] envBadDomain netOk verTrue =
      Except.ok ([CbCall.err "The certificate is located on an invalid domain."],
        [], 0) :=
  c4_domain_validation.2.2 defaultHostPattern [] envBadDomain netOk verTrue
    (by decide) (by rfl)

end SnsValidator
